import Mathlib

/-!
# Verification of the sparse-chain / chain-graph core

A shallow embedding of the repository's chain-indexing core
(`bdk_core/src/sparse_chain.rs` and the keychain change-set algebra of
`bdk_chain/src/keychain.rs`), together with proofs of the specified
properties.

Modelling conventions:
* `Txid` and `BlockHash` are modelled as `Nat` (`Txid::all_zeros()` is `0`,
  the minimum of the byte ordering, which is all that the code relies on).
* `u32` heights are modelled as `Nat`; the single place where the width
  matters (`u32::MAX` used as an upper bound sentinel in `apply_update`)
  uses the explicit constant `4294967295`.
* `BTreeMap` / `BTreeSet` are modelled as association lists ordered by key
  (ascending); `HashMap` / `HashSet` are association lists whose order is
  irrelevant.  Rust `HashMap` iteration order is captured by list order
  where the code iterates a map (`Update.txids`).
* Methods taking `&mut self` that can fail become functions returning a
  pair of the `Except` result and the state at the point of return.
-/

instance {ε α : Type} [DecidableEq ε] [DecidableEq α] : DecidableEq (Except ε α) := fun a b =>
  match a, b with
  | .error x, .error y =>
    if h : x = y then isTrue (by rw [h]) else isFalse (fun c => h (Except.error.inj c))
  | .error _, .ok _ => isFalse (fun c => Except.noConfusion c)
  | .ok _, .error _ => isFalse (fun c => Except.noConfusion c)
  | .ok x, .ok y =>
    if h : x = y then isTrue (by rw [h]) else isFalse (fun c => h (Except.ok.inj c))

/-- `BlockId` from `bdk_core`: a `(height, hash)` pair, equality on both
fields. -/
structure BlockId where
  height : Nat
  hash : Nat
deriving DecidableEq, Repr

/-- `TxHeight` from `sparse_chain.rs`: the confirmation state of a
transaction. -/
inductive TxHeight where
  | Confirmed : Nat → TxHeight
  | Unconfirmed : TxHeight
deriving DecidableEq, Repr

/-- The strict order on `TxHeight` produced by Rust `#[derive(PartialOrd,
Ord)]`: variants compare by declaration order (`Confirmed` before
`Unconfirmed`), and `Confirmed` payloads compare by the inner height. -/
def TxHeight.lt : TxHeight → TxHeight → Bool
  | .Confirmed a, .Confirmed b => decide (a < b)
  | .Confirmed _, .Unconfirmed => true
  | .Unconfirmed, _ => false

/-- Association-list lookup, the model of `BTreeMap::get` / `HashMap::get`
(first entry with the given key wins). -/
def alookup {α : Type} (k : Nat) : List (Nat × α) → Option α
  | [] => none
  | p :: rest => if p.1 = k then some p.2 else alookup k rest

/-- Lexicographic `≤` on `(height, txid)` pairs, the `Ord` instance used by
the `BTreeSet<(u32, Txid)>` of confirmed txids. -/
def pair_le (a b : Nat × Nat) : Bool :=
  decide (a.1 < b.1) || (decide (a.1 = b.1) && decide (a.2 ≤ b.2))

/-- Lexicographic `<` on `(height, txid)` pairs. -/
def pair_lt (a b : Nat × Nat) : Bool :=
  decide (a.1 < b.1) || (decide (a.1 = b.1) && decide (a.2 < b.2))

/-- `BTreeMap::entry(k).or_insert(v)`: insert `(k, v)` in key order only
when no entry with key `k` exists. -/
def btreemap_or_insert (m : List (Nat × Nat)) (k v : Nat) : List (Nat × Nat) :=
  match m with
  | [] => [(k, v)]
  | p :: rest =>
    if k < p.1 then (k, v) :: p :: rest
    else if k = p.1 then p :: rest
    else p :: btreemap_or_insert rest k v

/-- `BTreeSet::insert` on `(height, txid)` pairs, keeping the list sorted
in the lexicographic order; inserting an existing element is a no-op. -/
def btreeset_insert (x : Nat × Nat) (s : List (Nat × Nat)) : List (Nat × Nat) :=
  match s with
  | [] => [x]
  | y :: rest =>
    if pair_lt x y then x :: y :: rest
    else if x = y then y :: rest
    else y :: btreeset_insert x rest

/-- `HashMap::insert`: replace the value of an existing key, or add the
entry. -/
def hashmap_insert (k v : Nat) (m : List (Nat × Nat)) : List (Nat × Nat) :=
  match m with
  | [] => [(k, v)]
  | p :: rest => if p.1 = k then (k, v) :: rest else p :: hashmap_insert k v rest

/-- `HashSet::insert`: add the element when absent. -/
def hashset_insert (k : Nat) (s : List Nat) : List Nat :=
  if k ∈ s then s else k :: s

/-- The `SparseChain` state of `sparse_chain.rs`. -/
structure SparseChain where
  /-- Block height to checkpoint data (`BTreeMap<u32, BlockHash>`). -/
  checkpoints : List (Nat × Nat)
  /-- Txids prepended by confirmation height (`BTreeSet<(u32, Txid)>`). -/
  txid_by_height : List (Nat × Nat)
  /-- Confirmation heights of txids (`HashMap<Txid, u32>`). -/
  txid_to_index : List (Nat × Nat)
  /-- A list of mempool txids (`HashSet<Txid>`). -/
  mempool : List Nat
  /-- Limit number of checkpoints. -/
  checkpoint_limit : Option Nat
deriving DecidableEq, Repr

/-- `SparseChain::default()`. -/
def empty_sparse_chain : SparseChain :=
  { checkpoints := [], txid_by_height := [], txid_to_index := [],
    mempool := [], checkpoint_limit := none }

/-- `BogusReason` from `sparse_chain.rs`. -/
inductive BogusReason where
  | LastValidConflictsNewTip (new_tip last_valid : BlockId)
  | TxHeightGreaterThanTip (new_tip : BlockId) (tx : Nat × TxHeight)
deriving DecidableEq, Repr

/-- `UpdateFailure` from `sparse_chain.rs`. -/
inductive UpdateFailure where
  | Bogus (reason : BogusReason)
  | Stale (got_last_valid expected_last_valid : Option BlockId)
  | Inconsistent (inconsistent_txid : Nat) (original_height update_height : TxHeight)
deriving DecidableEq, Repr

/-- The `Update` type of `sparse_chain.rs`; `txids` is a `HashMap` whose
iteration order is captured by the list order. -/
structure Update where
  txids : List (Nat × TxHeight)
  last_valid : Option BlockId
  invalidate : Option BlockId
  new_tip : BlockId
deriving DecidableEq, Repr

/-- `Update::new`: a template update with no txids and no invalidation. -/
def update_new (last_valid : Option BlockId) (new_tip : BlockId) : Update :=
  { txids := [], last_valid := last_valid, invalidate := none, new_tip := new_tip }

/-- `SparseChain::latest_checkpoint`: the last (highest) checkpoint. -/
def latest_checkpoint (self : SparseChain) : Option BlockId :=
  self.checkpoints.getLast?.map (fun p => ⟨p.1, p.2⟩)

/-- `SparseChain::checkpoint_at`: the checkpoint at a given height. -/
def checkpoint_at (self : SparseChain) (height : Nat) : Option BlockId :=
  (alookup height self.checkpoints).map (fun hash => ⟨height, hash⟩)

/-- The `expected_last_valid` computed at the start of
`SparseChain::apply_update`: the last checkpoint in
`checkpoints.range(..upper_bound)` where `upper_bound` is
`invalidate.height`, or `u32::MAX` when there is no invalidation. -/
def expected_last_valid (self : SparseChain) (invalidate : Option BlockId) : Option BlockId :=
  let upper_bound := match invalidate with
    | some b => b.height
    | none => 4294967295
  ((self.checkpoints.filter (fun p => decide (p.1 < upper_bound))).getLast?).map
    (fun p => ⟨p.1, p.2⟩)

/-- The per-tx bound of `apply_update`: a confirmed height must not exceed
`new_tip.height`. -/
def tx_height_exceeds : TxHeight → Nat → Bool
  | .Confirmed h, tip => decide (tip < h)
  | .Unconfirmed, _ => false

/-- `matches!(update.invalidate, Some(invalid) if height >= invalid.height)`:
is the stored height covered by the invalidation? -/
def invalidate_covers : Option BlockId → Nat → Bool
  | some inv, h => decide (inv.height ≤ h)
  | none, _ => false

/-- The validation loop of `apply_update` over `update.txids`: for each
entry, first the tip bound, then the consistency check against the
currently recorded confirmation height. -/
def check_txids (self : SparseChain) (u : Update) : List (Nat × TxHeight) → Option UpdateFailure
  | [] => none
  | (txid, tx_height) :: rest =>
    if tx_height_exceeds tx_height u.new_tip.height then
      some (.Bogus (.TxHeightGreaterThanTip u.new_tip (txid, tx_height)))
    else
      match alookup txid self.txid_to_index with
      | some height =>
        if invalidate_covers u.invalidate height || decide (tx_height = TxHeight.Confirmed height) then
          check_txids self u rest
        else
          some (.Inconsistent txid (.Confirmed height) tx_height)
      | none => check_txids self u rest

/-- `SparseChain::invalidate_checkpoints`: drop all checkpoints from
`height` upward, drop the confirmed txids at those heights (a
`split_off` at `(height, Txid::all_zeros())`), remove them from
`txid_to_index`, and clear the mempool when any txid was removed. -/
def invalidate_checkpoints (self : SparseChain) (height : Nat) : SparseChain :=
  let removed_txids := self.txid_by_height.filter (fun p => pair_le (height, 0) p)
  { checkpoints := self.checkpoints.filter (fun p => decide (p.1 < height)),
    txid_by_height := self.txid_by_height.filter (fun p => !pair_le (height, 0) p),
    txid_to_index := self.txid_to_index.filter
      (fun q => !(removed_txids.any (fun r => decide (r.2 = q.1)))),
    mempool := if removed_txids.isEmpty then self.mempool else [],
    checkpoint_limit := self.checkpoint_limit }

/-- The body of the tx-insertion loop of `apply_update`: a confirmed txid
goes into `txid_by_height` (and, when newly inserted, into
`txid_to_index` while leaving the mempool); an unconfirmed txid goes into
the mempool. -/
def apply_txid (s : SparseChain) (p : Nat × TxHeight) : SparseChain :=
  match p.2 with
  | .Confirmed height =>
    if (height, p.1) ∈ s.txid_by_height then s
    else
      { s with
        txid_by_height := btreeset_insert (height, p.1) s.txid_by_height,
        txid_to_index := hashmap_insert p.1 height s.txid_to_index,
        mempool := s.mempool.filter (fun t => decide (t ≠ p.1)) }
  | .Unconfirmed => { s with mempool := hashset_insert p.1 s.mempool }

/-- The tx-insertion loop of `apply_update`. -/
def apply_update_txids (s : SparseChain) (l : List (Nat × TxHeight)) : SparseChain :=
  l.foldl apply_txid s

/-- `SparseChain::prune_checkpoints`: when a checkpoint limit is set and
exceeded, keep only the checkpoints above the `limit`-th height from the
top. -/
def prune_checkpoints (self : SparseChain) : SparseChain :=
  match self.checkpoint_limit with
  | none => self
  | some limit =>
    match (self.checkpoints.map Prod.fst).reverse.get? limit with
    | none => self
    | some last_height =>
      { self with
        checkpoints := self.checkpoints.filter (fun p => decide (last_height + 1 ≤ p.1)) }

/-- The mutation phase of `apply_update` (runs after all validation
succeeded): invalidate, record the new tip, insert the txids, prune. -/
def apply_update_mutations (self : SparseChain) (u : Update) : SparseChain :=
  let s1 := match u.invalidate with
    | some inv => invalidate_checkpoints self inv.height
    | none => self
  let s2 := { s1 with
    checkpoints := btreemap_or_insert s1.checkpoints u.new_tip.height u.new_tip.hash }
  let s3 := apply_update_txids s2 u.txids
  prune_checkpoints s3

/-- The second half of `apply_update`: the per-tx validation loop followed
by the mutations. -/
def apply_update_phase2 (self : SparseChain) (u : Update) :
    Except UpdateFailure Unit × SparseChain :=
  match check_txids self u u.txids with
  | some e => (Except.error e, self)
  | none => (Except.ok (), apply_update_mutations self u)

/-- `SparseChain::apply_update`: staleness check, tip-coherence check, then
the per-tx checks and the mutations.  The returned state is the value of
`self` at the point the Rust function returns. -/
def apply_update (self : SparseChain) (u : Update) :
    Except UpdateFailure Unit × SparseChain :=
  let elv := expected_last_valid self u.invalidate
  if u.last_valid ≠ elv then
    (Except.error (.Stale u.last_valid elv), self)
  else
    match elv with
    | some lv =>
      if u.new_tip.height < lv.height ∨
          (u.new_tip.height = lv.height ∧ u.new_tip.hash ≠ lv.hash) then
        (Except.error (.Bogus (.LastValidConflictsNewTip u.new_tip lv)), self)
      else
        apply_update_phase2 self u
    | none => apply_update_phase2 self u

/-- `SparseChain::apply_block_txs`: build an update confirming the given
txids at `block_id.height` and apply it; an existing checkpoint at that
height with a different hash is invalidated. -/
def apply_block_txs (self : SparseChain) (block_id : BlockId) (transactions : List Nat) :
    Except UpdateFailure Unit × SparseChain :=
  let checkpoint0 : Update :=
    { txids := transactions.map (fun txid => (txid, TxHeight.Confirmed block_id.height)),
      last_valid := latest_checkpoint self,
      invalidate := none,
      new_tip := block_id }
  let checkpoint := match checkpoint_at self block_id.height with
    | some id => if id ≠ block_id then { checkpoint0 with invalidate := some id } else checkpoint0
    | none => checkpoint0
  apply_update self checkpoint

/-- `SparseChain::clear_mempool`. -/
def clear_mempool (self : SparseChain) : SparseChain :=
  { self with mempool := [] }

/-- `SparseChain::disconnect_block`: when the checkpoint at that height has
the given hash, invalidate from the height and clear the mempool. -/
def disconnect_block (self : SparseChain) (block_id : BlockId) : SparseChain :=
  match alookup block_id.height self.checkpoints with
  | some checkpoint_hash =>
    if checkpoint_hash = block_id.hash then
      clear_mempool (invalidate_checkpoints self block_id.height)
    else self
  | none => self

/-- `SparseChain::set_checkpoint_limit`: stores the limit; no pruning
happens here. -/
def set_checkpoint_limit (self : SparseChain) (limit : Option Nat) : SparseChain :=
  { self with checkpoint_limit := limit }

/-- `SparseChain::checkpoint_txids`: `none` models the function's two
abort conditions (missing checkpoint height, differing hash); otherwise
the range of `txid_by_height` from `(block_id.height, Txid::all_zeros())`
upward. -/
def checkpoint_txids (self : SparseChain) (block_id : BlockId) : Option (List (Nat × Nat)) :=
  match alookup block_id.height self.checkpoints with
  | none => none
  | some block_hash =>
    if block_hash = block_id.hash then
      some (self.txid_by_height.filter (fun p => pair_le (block_id.height, 0) p))
    else none

/-- C9: The derived ordering on `TxHeight` is a total order in which
`Confirmed h1 < Confirmed h2` exactly when `h1 < h2`, and
`Confirmed h < Unconfirmed` for every height `h`. -/
theorem txheight_order_total :
    (∀ a : TxHeight, TxHeight.lt a a = false) ∧
    (∀ a b c : TxHeight, TxHeight.lt a b = true → TxHeight.lt b c = true →
      TxHeight.lt a c = true) ∧
    (∀ a b : TxHeight, a = b ∨ TxHeight.lt a b = true ∨ TxHeight.lt b a = true) ∧
    (∀ h1 h2 : Nat, (TxHeight.lt (.Confirmed h1) (.Confirmed h2) = true ↔ h1 < h2)) ∧
    (∀ h : Nat, TxHeight.lt (.Confirmed h) .Unconfirmed = true) := by
  refine ⟨?_, ?_, ?_, ?_, ?_⟩
  · intro a; cases a <;> simp [TxHeight.lt]
  · intro a b c hab hbc
    cases a <;> cases b <;> cases c <;> simp_all [TxHeight.lt] <;> omega
  · intro a b
    cases a <;> cases b <;> simp [TxHeight.lt] <;> omega
  · intro h1 h2; simp [TxHeight.lt]
  · intro h; rfl

theorem txheight_order_total_witness :
    TxHeight.lt (.Confirmed 0) .Unconfirmed = true :=
  txheight_order_total.2.1 (.Confirmed 0) (.Confirmed 1) .Unconfirmed (by decide) (by decide)

/-- C1: whenever `apply_update` returns an error (any `UpdateFailure`
variant), every component of the chain's state is exactly what it was
before the call. -/
theorem apply_update_error_leaves_chain_unchanged (s : SparseChain) (u : Update)
    (e : UpdateFailure) (h : (apply_update s u).1 = Except.error e) :
    (apply_update s u).2.checkpoints = s.checkpoints ∧
    (apply_update s u).2.txid_by_height = s.txid_by_height ∧
    (apply_update s u).2.txid_to_index = s.txid_to_index ∧
    (apply_update s u).2.mempool = s.mempool ∧
    (apply_update s u).2.checkpoint_limit = s.checkpoint_limit := by
  have h2s : (apply_update s u).2 = s := by
    unfold apply_update at h ⊢
    by_cases h1 : u.last_valid ≠ expected_last_valid s u.invalidate
    · simp [h1]
    · simp only [h1, if_false] at h ⊢
      cases helv : expected_last_valid s u.invalidate with
      | none =>
        simp only [helv] at h ⊢
        unfold apply_update_phase2 at h ⊢
        cases hc : check_txids s u u.txids with
        | none => simp [hc] at h
        | some e2 => simp [hc]
      | some lv =>
        simp only [helv] at h ⊢
        by_cases h2 : u.new_tip.height < lv.height ∨
            (u.new_tip.height = lv.height ∧ u.new_tip.hash ≠ lv.hash)
        · simp [h2]
        · simp only [h2, if_false] at h ⊢
          unfold apply_update_phase2 at h ⊢
          cases hc : check_txids s u u.txids with
          | none => simp [hc] at h
          | some e2 => simp [hc]
  exact ⟨by rw [h2s], by rw [h2s], by rw [h2s], by rw [h2s], by rw [h2s]⟩

theorem apply_update_error_leaves_chain_unchanged_witness :
    (apply_update empty_sparse_chain (update_new (some ⟨0, 0⟩) ⟨1, 1⟩)).1 =
      Except.error (.Stale (some ⟨0, 0⟩) none) ∧
    (apply_update empty_sparse_chain (update_new (some ⟨0, 0⟩) ⟨1, 1⟩)).2.checkpoints =
      empty_sparse_chain.checkpoints := by
  have h : (apply_update empty_sparse_chain (update_new (some ⟨0, 0⟩) ⟨1, 1⟩)).1 =
      Except.error (.Stale (some ⟨0, 0⟩) none) := by decide
  exact ⟨h, (apply_update_error_leaves_chain_unchanged _ _ _ h).1⟩

/-- The chain obtained by applying a first update whose tip sits at height
`u32::MAX = 4294967295` to the empty chain. -/
def c3_chain : SparseChain :=
  (apply_update empty_sparse_chain (update_new none ⟨4294967295, 7⟩)).2

/-- C3: evaluation at the failing input.  `c3_chain` is reachable and its
overall latest checkpoint is `(4294967295, 7)`, yet an update carrying
exactly that checkpoint as `last_valid` (with no invalidation) is
rejected as `Stale`: the code computes `expected_last_valid` with
`range(..u32::MAX)`, which excludes a checkpoint stored at height
`u32::MAX` itself, contradicting the documented intent that it be the
last checkpoint of the chain. -/
theorem stale_check_misses_checkpoint_at_u32_max :
    latest_checkpoint c3_chain = some ⟨4294967295, 7⟩ ∧
    (apply_update c3_chain (update_new (some ⟨4294967295, 7⟩) ⟨4294967295, 7⟩)).1 =
      Except.error (.Stale (some ⟨4294967295, 7⟩) none) := by
  constructor
  · decide
  · decide

/-- The update used to refute C5 as stated: `invalidate` is set, yet the
update succeeds on the empty chain. -/
def c5_update : Update :=
  { txids := [], last_valid := none, invalidate := some ⟨1, 1⟩, new_tip := ⟨2, 2⟩ }

/-- C5 counterexample: on the empty chain with `last_valid = none`, an
update with `invalidate = some _` succeeds, refuting "succeeds iff
`invalidate = none`". -/
theorem apply_update_empty_invalidate_counterexample :
    c5_update.invalidate ≠ none ∧
    (apply_update empty_sparse_chain c5_update).1 = Except.ok () := by
  constructor
  · decide
  · decide

/-- C5 (amended): on the empty chain with `last_valid = none`,
`apply_update` succeeds iff no tx in the update is confirmed above
`new_tip.height`; the `invalidate` field plays no role. -/
theorem apply_update_empty_chain_success_iff (u : Update) (h : u.last_valid = none) :
    ((apply_update empty_sparse_chain u).1 = Except.ok () ↔
      ∀ p ∈ u.txids, tx_height_exceeds p.2 u.new_tip.height = false) := by
  have helv : expected_last_valid empty_sparse_chain u.invalidate = none := by
    cases u.invalidate <;> rfl
  have hcheck : ∀ l : List (Nat × TxHeight),
      (check_txids empty_sparse_chain u l = none ↔
        ∀ p ∈ l, tx_height_exceeds p.2 u.new_tip.height = false) := by
    intro l
    induction l with
    | nil => simp [check_txids]
    | cons p rest ih =>
      obtain ⟨txid, tx_height⟩ := p
      by_cases hb : tx_height_exceeds tx_height u.new_tip.height = true
      · simp [check_txids, hb]
      · have hb' : tx_height_exceeds tx_height u.new_tip.height = false := by
          simpa using hb
        have hlk : alookup txid empty_sparse_chain.txid_to_index = none := rfl
        simp [check_txids, hb', hlk, ih]
  have hred : apply_update empty_sparse_chain u = apply_update_phase2 empty_sparse_chain u := by
    unfold apply_update
    simp [helv, h]
  rw [hred]
  unfold apply_update_phase2
  cases hc : check_txids empty_sparse_chain u u.txids with
  | none => simpa using (hcheck u.txids).mp hc
  | some e =>
    have h2 := hcheck u.txids
    rw [hc] at h2
    simp only [reduceCtorEq, false_iff] at h2
    simpa using h2

theorem apply_update_empty_chain_success_iff_witness :
    (apply_update empty_sparse_chain
      { txids := [(5, TxHeight.Confirmed 1)], last_valid := none,
        invalidate := none, new_tip := ⟨2, 2⟩ }).1 = Except.ok () :=
  (apply_update_empty_chain_success_iff _ rfl).mpr (by decide)

/-- The tip-coherence condition of `apply_update` as a boolean:
`new_tip` conflicts with an expected `last_valid`. -/
def tip_conflicts_with (elv : Option BlockId) (new_tip : BlockId) : Bool :=
  match elv with
  | some lv =>
    decide (new_tip.height < lv.height) ||
      (decide (new_tip.height = lv.height) && decide (new_tip.hash ≠ lv.hash))
  | none => false

/-- A tx entry of an update is inconsistent when its txid is already
confirmed at some height, that height is not covered by the update's
invalidation, and the update assigns a different position. -/
def tx_inconsistent (s : SparseChain) (invalidate : Option BlockId) (p : Nat × TxHeight) : Bool :=
  match alookup p.1 s.txid_to_index with
  | some h_old => !(invalidate_covers invalidate h_old || decide (p.2 = TxHeight.Confirmed h_old))
  | none => false

theorem find?_cons_false {α : Type} (p : α → Bool) (a : α) (l : List α) (h : p a = false) :
    (a :: l).find? p = l.find? p := by
  simp [List.find?, h]

theorem find?_cons_true {α : Type} (p : α → Bool) (a : α) (l : List α) (h : p a = true) :
    (a :: l).find? p = some a := by
  simp [List.find?, h]

/-- When no entry violates the tip bound, the validation loop reports the
first inconsistent entry (in iteration order), or nothing. -/
theorem check_txids_eq_find (s : SparseChain) (u : Update) (l : List (Nat × TxHeight))
    (hb : ∀ p ∈ l, tx_height_exceeds p.2 u.new_tip.height = false) :
    check_txids s u l =
      match l.find? (fun p => tx_inconsistent s u.invalidate p) with
      | none => none
      | some p =>
        some (.Inconsistent p.1 (.Confirmed ((alookup p.1 s.txid_to_index).getD 0)) p.2) := by
  induction l with
  | nil => simp [check_txids]
  | cons p rest ih =>
    obtain ⟨txid, tx_height⟩ := p
    have hb0 : tx_height_exceeds tx_height u.new_tip.height = false := hb _ (List.mem_cons_self _ _)
    have hbr : ∀ q ∈ rest, tx_height_exceeds q.2 u.new_tip.height = false :=
      fun q hq => hb q (List.mem_cons_of_mem _ hq)
    cases halk : alookup txid s.txid_to_index with
    | none =>
      have hti : tx_inconsistent s u.invalidate (txid, tx_height) = false := by
        simp [tx_inconsistent, halk]
      rw [check_txids, if_neg (by simp [hb0]), halk,
        find?_cons_false _ _ _ (by simpa using hti), ih hbr]
    | some height =>
      by_cases hcons : (invalidate_covers u.invalidate height ||
          decide (tx_height = TxHeight.Confirmed height)) = true
      · have hti : tx_inconsistent s u.invalidate (txid, tx_height) = false := by
          simp only [tx_inconsistent, halk, hcons, Bool.not_true]
        rw [check_txids, if_neg (by simp [hb0]), halk,
          find?_cons_false _ _ _ (by simpa using hti), ih hbr]
        simp [hcons]
      · have hcons' : (invalidate_covers u.invalidate height ||
            decide (tx_height = TxHeight.Confirmed height)) = false := by
          simpa using hcons
        have hti : tx_inconsistent s u.invalidate (txid, tx_height) = true := by
          simp only [tx_inconsistent, halk, hcons', Bool.not_false]
        rw [check_txids, if_neg (by simp [hb0]), halk,
          find?_cons_true _ _ _ (by simpa using hti)]
        simp [hcons', halk]

/-- C4: for an update that passes the staleness check, the tip-coherence
check and the per-tx tip bound, `apply_update` fails with `Inconsistent`
reporting the first txid (in iteration order) that is already confirmed
at an uncovered height and moves, together with its original and update
heights; it succeeds when there is no such txid. -/
theorem apply_update_inconsistent_reporting (s : SparseChain) (u : Update)
    (hstale : u.last_valid = expected_last_valid s u.invalidate)
    (htip : tip_conflicts_with (expected_last_valid s u.invalidate) u.new_tip = false)
    (hbound : ∀ p ∈ u.txids, tx_height_exceeds p.2 u.new_tip.height = false) :
    (∀ t hn, u.txids.find? (fun p => tx_inconsistent s u.invalidate p) = some (t, hn) →
      ∀ h_old, alookup t s.txid_to_index = some h_old →
        apply_update s u = (Except.error (.Inconsistent t (.Confirmed h_old) hn), s)) ∧
    (u.txids.find? (fun p => tx_inconsistent s u.invalidate p) = none →
      (apply_update s u).1 = Except.ok ()) := by
  have hfind := check_txids_eq_find s u u.txids hbound
  have hred : apply_update s u = apply_update_phase2 s u := by
    unfold apply_update
    cases helv : expected_last_valid s u.invalidate with
    | none => simp [hstale, helv]
    | some lv =>
      rw [helv] at htip
      simp only [tip_conflicts_with, Bool.or_eq_false_iff, Bool.and_eq_false_iff,
        decide_eq_false_iff_not, not_lt, not_not] at htip
      have htip' : ¬(u.new_tip.height < lv.height ∨
          (u.new_tip.height = lv.height ∧ u.new_tip.hash ≠ lv.hash)) := by
        rcases htip with ⟨h1, h2⟩
        rintro (hlt | ⟨heq, hne⟩)
        · omega
        · rcases h2 with h2 | h2
          · exact h2 heq
          · exact hne h2
      simp [hstale, helv, htip']
  constructor
  · intro t hn hfnd h_old halk
    rw [hred]
    unfold apply_update_phase2
    rw [hfind, hfnd]
    simp [halk]
  · intro hnone
    rw [hred]
    unfold apply_update_phase2
    rw [hfind, hnone]

/-- A chain with one checkpoint at height 2 and txid 10 confirmed at
height 0, used to exercise `apply_update_inconsistent_reporting`. -/
def c4_chain : SparseChain :=
  { checkpoints := [(2, 2)], txid_by_height := [(0, 10)], txid_to_index := [(10, 0)],
    mempool := [], checkpoint_limit := none }

/-- An update that tries to move txid 10 back to the mempool without any
invalidation. -/
def c4_update : Update :=
  { txids := [(10, TxHeight.Unconfirmed)], last_valid := some ⟨2, 2⟩,
    invalidate := none, new_tip := ⟨2, 2⟩ }

theorem apply_update_inconsistent_reporting_witness :
    apply_update c4_chain c4_update =
      (Except.error (.Inconsistent 10 (.Confirmed 0) .Unconfirmed), c4_chain) :=
  (apply_update_inconsistent_reporting c4_chain c4_update (by decide) (by decide)
    (by decide)).1 10 .Unconfirmed (by decide) 0 (by decide)

/-- C10: `checkpoint_txids` aborts exactly when the chain does not hold a
checkpoint with the given height and hash; under the precondition it
yields exactly the `(height, txid)` pairs of `txid_by_height` with
`height ≥ block_id.height`. -/
theorem checkpoint_txids_range (s : SparseChain) (b : BlockId) :
    ((checkpoint_txids s b).isSome ↔ alookup b.height s.checkpoints = some b.hash) ∧
    (∀ l, checkpoint_txids s b = some l →
      ∀ p : Nat × Nat, (p ∈ l ↔ p ∈ s.txid_by_height ∧ b.height ≤ p.1)) := by
  have hple : ∀ p : Nat × Nat, (pair_le (b.height, 0) p = true ↔ b.height ≤ p.1) := by
    intro p
    simp only [pair_le, Bool.or_eq_true, Bool.and_eq_true, decide_eq_true_eq]
    omega
  constructor
  · cases halk : alookup b.height s.checkpoints with
    | none => simp [checkpoint_txids, halk]
    | some hsh =>
      by_cases he : hsh = b.hash
      · subst he
        simp [checkpoint_txids, halk]
      · simp [checkpoint_txids, halk, he]
  · intro l hl p
    cases halk : alookup b.height s.checkpoints with
    | none => simp [checkpoint_txids, halk] at hl
    | some hsh =>
      by_cases he : hsh = b.hash
      · subst he
        simp [checkpoint_txids, halk] at hl
        subst hl
        rw [List.mem_filter]
        simp [hple p]
      · simp [checkpoint_txids, halk, he] at hl

/-- A chain with one checkpoint at height 1 and three confirmed txids. -/
def c10_chain : SparseChain :=
  { checkpoints := [(1, 5)], txid_by_height := [(0, 3), (1, 4), (2, 9)],
    txid_to_index := [(3, 0), (4, 1), (9, 2)], mempool := [], checkpoint_limit := none }

theorem checkpoint_txids_range_witness :
    (checkpoint_txids c10_chain ⟨1, 5⟩).isSome ∧
    ((1, 4) ∈ c10_chain.txid_by_height ∧ (1 : Nat) ≤ 1) :=
  ⟨(checkpoint_txids_range c10_chain ⟨1, 5⟩).1.mpr (by decide),
    ((checkpoint_txids_range c10_chain ⟨1, 5⟩).2 [(1, 4), (2, 9)] (by decide) (1, 4)).mp
      (by decide)⟩

/-- The derivation-index merge of `KeychainChangeSet::append`
(`keychain.rs`): every index of `self` is raised to the max of itself and
the corresponding entry removed from `other` (defaulting to 0), then the
remaining entries of `other` are moved into `self`.  Keychains are
modelled as `Nat` keys. -/
def derivation_indices_append (self other : List (Nat × Nat)) : List (Nat × Nat) :=
  (self.map (fun p => (p.1, Nat.max p.2 ((alookup p.1 other).getD 0)))) ++
    other.filter (fun q => (alookup q.1 self).isNone)

theorem alookup_append {α : Type} (k : Nat) (l r : List (Nat × α)) :
    alookup k (l ++ r) = match alookup k l with
      | some v => some v
      | none => alookup k r := by
  induction l with
  | nil => rfl
  | cons p rest ih =>
    by_cases h : p.1 = k
    · simp [alookup, h]
    · simp [alookup, h, ih]

theorem alookup_di_map (other : List (Nat × Nat)) (k : Nat) (self : List (Nat × Nat)) :
    alookup k (self.map (fun p => (p.1, Nat.max p.2 ((alookup p.1 other).getD 0)))) =
      (alookup k self).map (fun v => Nat.max v ((alookup k other).getD 0)) := by
  induction self with
  | nil => rfl
  | cons p rest ih =>
    by_cases h : p.1 = k
    · simp [alookup, h]
    · simp [alookup, h, ih]

theorem alookup_filter_isnone (k : Nat) (self other : List (Nat × Nat))
    (hk : alookup k self = none) :
    alookup k (other.filter (fun q => (alookup q.1 self).isNone)) = alookup k other := by
  induction other with
  | nil => rfl
  | cons p rest ih =>
    by_cases h : p.1 = k
    · have hkeep : (alookup p.1 self).isNone = true := by rw [h, hk]; rfl
      simp [List.filter_cons, hkeep, alookup, h, hk]
    · cases hp : (alookup p.1 self).isNone
      · simp [List.filter_cons, hp, alookup, h, ih]
      · simp [List.filter_cons, hp, alookup, h, ih]

/-- C8: after `append`, the merged derivation-index map assigns to every
keychain the max of the two values when present in both, the present
value when in only one, and nothing when in neither; consequently a
keychain's index never decreases under `append`. -/
theorem derivation_indices_append_pointwise_max (self other : List (Nat × Nat)) (k : Nat) :
    (alookup k (derivation_indices_append self other) =
      match alookup k self, alookup k other with
      | some a, some b => some (Nat.max a b)
      | some a, none => some a
      | none, some b => some b
      | none, none => none) ∧
    (∀ a c, alookup k self = some a →
      alookup k (derivation_indices_append self other) = some c → a ≤ c) := by
  have hmain : alookup k (derivation_indices_append self other) =
      match alookup k self, alookup k other with
      | some a, some b => some (Nat.max a b)
      | some a, none => some a
      | none, some b => some b
      | none, none => none := by
    unfold derivation_indices_append
    rw [alookup_append, alookup_di_map]
    cases hs : alookup k self with
    | some a =>
      cases ho : alookup k other with
      | some b => simp [ho]
      | none => simp [ho]
    | none =>
      cases ho : alookup k other with
      | some b => simp [alookup_filter_isnone k self other hs, ho]
      | none => simp [alookup_filter_isnone k self other hs, ho]
  refine ⟨hmain, ?_⟩
  intro a c ha hc
  rw [hmain, ha] at hc
  cases ho : alookup k other with
  | some b =>
    rw [ho] at hc
    have hcm : c = Nat.max a b := (Option.some.inj hc).symm
    subst hcm
    exact Nat.le_max_left a b
  | none =>
    rw [ho] at hc
    have : c = a := (Option.some.inj hc).symm
    omega

theorem derivation_indices_append_pointwise_max_witness :
    alookup 1 (derivation_indices_append [(1, 7), (2, 0), (3, 3)] [(1, 3), (2, 5), (4, 4)]) =
      some 7 ∧
    alookup 2 (derivation_indices_append [(1, 7), (2, 0), (3, 3)] [(1, 3), (2, 5), (4, 4)]) =
      some 5 ∧
    (0 : Nat) ≤ 5 :=
  ⟨(derivation_indices_append_pointwise_max [(1, 7), (2, 0), (3, 3)] [(1, 3), (2, 5), (4, 4)] 1).1,
   (derivation_indices_append_pointwise_max [(1, 7), (2, 0), (3, 3)] [(1, 3), (2, 5), (4, 4)] 2).1,
   (derivation_indices_append_pointwise_max [(1, 7), (2, 0), (3, 3)] [(1, 3), (2, 5), (4, 4)] 2).2
     0 5 (by decide) (by decide)⟩

theorem sorted_filter_after (l : List (Nat × Nat)) (hs : l.Pairwise (fun a b => a.1 < b.1)) :
    ∀ j q, l.get? j = some q →
      l.filter (fun p => decide (q.1 + 1 ≤ p.1)) = l.drop (j + 1) := by
  induction l with
  | nil => intro j q hq; simp at hq
  | cons a rest ih =>
    intro j q hq
    rw [List.pairwise_cons] at hs
    obtain ⟨ha, hrest⟩ := hs
    cases j with
    | zero =>
      have hqa : a = q := by simpa using hq
      subst hqa
      have h1 : ¬(a.1 + 1 ≤ a.1) := by omega
      simp only [List.filter_cons, decide_eq_true_eq, h1, if_false]
      rw [List.drop_succ_cons, List.drop_zero]
      exact List.filter_eq_self.mpr (fun p hp => by
        have := ha p hp
        simp only [decide_eq_true_eq]
        omega)
    | succ j2 =>
      have hq2 : rest.get? j2 = some q := by simpa using hq
      have hqm : q ∈ rest := List.get?_mem hq2
      have haq : a.1 < q.1 := ha q hqm
      have h1 : ¬(q.1 + 1 ≤ a.1) := by omega
      simp only [List.filter_cons, decide_eq_true_eq, h1, if_false]
      rw [List.drop_succ_cons]
      exact ih hrest j2 q hq2

theorem btreemap_or_insert_mem (m : List (Nat × Nat)) (k v : Nat) (x : Nat × Nat)
    (hx : x ∈ btreemap_or_insert m k v) : x ∈ m ∨ x = (k, v) := by
  induction m with
  | nil =>
    simp only [btreemap_or_insert, List.mem_singleton] at hx
    right; exact hx
  | cons p rest ih =>
    by_cases h1 : k < p.1
    · simp only [btreemap_or_insert, if_pos h1, List.mem_cons] at hx
      rcases hx with hx | hx | hx
      · right; exact hx
      · left; exact List.mem_cons.mpr (Or.inl hx)
      · left; exact List.mem_cons_of_mem _ hx
    · by_cases h2 : k = p.1
      · simp only [btreemap_or_insert, if_neg h1, if_pos h2] at hx
        left; exact hx
      · simp only [btreemap_or_insert, if_neg h1, if_neg h2, List.mem_cons] at hx
        rcases hx with hx | hx
        · left; exact List.mem_cons.mpr (Or.inl hx)
        · rcases ih hx with hmem | heq
          · left; exact List.mem_cons_of_mem _ hmem
          · right; exact heq

theorem btreemap_or_insert_sorted (m : List (Nat × Nat)) (k v : Nat)
    (hs : m.Pairwise (fun a b => a.1 < b.1)) :
    (btreemap_or_insert m k v).Pairwise (fun a b => a.1 < b.1) := by
  induction m with
  | nil => simp [btreemap_or_insert]
  | cons p rest ih =>
    rw [List.pairwise_cons] at hs
    obtain ⟨hp, hrest⟩ := hs
    by_cases h1 : k < p.1
    · simp only [btreemap_or_insert, if_pos h1]
      rw [List.pairwise_cons]
      refine ⟨?_, ?_⟩
      · intro b hb
        rcases List.mem_cons.mp hb with hb | hb
        · subst hb; exact h1
        · have := hp b hb; omega
      · rw [List.pairwise_cons]
        exact ⟨hp, hrest⟩
    · by_cases h2 : k = p.1
      · simp only [btreemap_or_insert, if_neg h1, if_pos h2]
        rw [List.pairwise_cons]
        exact ⟨hp, hrest⟩
      · simp only [btreemap_or_insert, if_neg h1, if_neg h2]
        rw [List.pairwise_cons]
        refine ⟨?_, ih hrest⟩
        intro b hb
        rcases btreemap_or_insert_mem rest k v b hb with hmem | heq
        · exact hp b hmem
        · subst heq; omega

/-- The pruning of `prune_checkpoints` keeps exactly the `limit` highest
checkpoints (i.e. drops the lowest) and touches nothing else. -/
theorem prune_checkpoints_spec (s : SparseChain) (n : Nat)
    (hs : s.checkpoints.Pairwise (fun a b => a.1 < b.1))
    (hl : s.checkpoint_limit = some n) :
    (prune_checkpoints s).checkpoints = s.checkpoints.drop (s.checkpoints.length - n) ∧
    (prune_checkpoints s).txid_by_height = s.txid_by_height ∧
    (prune_checkpoints s).txid_to_index = s.txid_to_index ∧
    (prune_checkpoints s).mempool = s.mempool ∧
    (prune_checkpoints s).checkpoint_limit = s.checkpoint_limit := by
  have hpr : prune_checkpoints s =
      match (s.checkpoints.map Prod.fst).reverse.get? n with
      | none => s
      | some last_height =>
        { checkpoints := s.checkpoints.filter (fun p => decide (last_height + 1 ≤ p.1)),
          txid_by_height := s.txid_by_height, txid_to_index := s.txid_to_index,
          mempool := s.mempool, checkpoint_limit := some n } := by
    unfold prune_checkpoints
    rw [hl]
  rw [hpr]
  cases hg : (s.checkpoints.map Prod.fst).reverse.get? n with
  | none =>
    have hlen : s.checkpoints.length ≤ n := by
      have := List.get?_eq_none.mp hg
      simpa using this
    have hz : s.checkpoints.length - n = 0 := by omega
    simp [hz, hl]
  | some k =>
    have hn : n < s.checkpoints.length := by
      by_contra hcon
      have : (s.checkpoints.map Prod.fst).reverse.get? n = none :=
        List.get?_eq_none.mpr (by simpa using Nat.le_of_not_lt hcon)
      rw [this] at hg; cases hg
    have hrev : (s.checkpoints.map Prod.fst).get? (s.checkpoints.length - 1 - n) = some k := by
      rw [List.get?_reverse] at hg
      · simpa using hg
      · simpa using hn
    rw [List.get?_map] at hrev
    cases hq : s.checkpoints.get? (s.checkpoints.length - 1 - n) with
    | none => rw [hq] at hrev; cases hrev
    | some q =>
      rw [hq] at hrev
      have hk : q.1 = k := by simpa using hrev
      have hfl := sorted_filter_after s.checkpoints hs (s.checkpoints.length - 1 - n) q hq
      rw [hk] at hfl
      have hidx : s.checkpoints.length - 1 - n + 1 = s.checkpoints.length - n := by omega
      rw [hidx] at hfl
      exact ⟨hfl, rfl, rfl, rfl, hl.symm⟩

theorem apply_txid_preserves (s : SparseChain) (p : Nat × TxHeight) :
    (apply_txid s p).checkpoints = s.checkpoints ∧
    (apply_txid s p).checkpoint_limit = s.checkpoint_limit := by
  obtain ⟨t, h⟩ := p
  cases h with
  | Confirmed height =>
    by_cases hmem : (height, t) ∈ s.txid_by_height
    · simp [apply_txid, hmem]
    · simp [apply_txid, hmem]
  | Unconfirmed => simp [apply_txid]

theorem apply_update_txids_preserves (l : List (Nat × TxHeight)) (s : SparseChain) :
    (apply_update_txids s l).checkpoints = s.checkpoints ∧
    (apply_update_txids s l).checkpoint_limit = s.checkpoint_limit := by
  induction l generalizing s with
  | nil => exact ⟨rfl, rfl⟩
  | cons p rest ih =>
    have h1 := apply_txid_preserves s p
    have h2 := ih (apply_txid s p)
    unfold apply_update_txids at h2 ⊢
    simp only [List.foldl_cons]
    exact ⟨h2.1.trans h1.1, h2.2.trans h1.2⟩

/-- On a successful update the returned state is the one produced by the
mutation phase. -/
theorem apply_update_ok_state (s : SparseChain) (u : Update)
    (hok : (apply_update s u).1 = Except.ok ()) :
    (apply_update s u).2 = apply_update_mutations s u := by
  unfold apply_update at hok ⊢
  by_cases h1 : u.last_valid ≠ expected_last_valid s u.invalidate
  · simp [h1] at hok
  · simp only [h1, if_false] at hok ⊢
    cases helv : expected_last_valid s u.invalidate with
    | none =>
      simp only [helv] at hok ⊢
      unfold apply_update_phase2 at hok ⊢
      cases hc : check_txids s u u.txids with
      | none => simp [hc]
      | some e => simp [hc] at hok
    | some lv =>
      simp only [helv] at hok ⊢
      by_cases h2 : u.new_tip.height < lv.height ∨
          (u.new_tip.height = lv.height ∧ u.new_tip.hash ≠ lv.hash)
      · simp [h2] at hok
      · simp only [h2, if_false] at hok ⊢
        unfold apply_update_phase2 at hok ⊢
        cases hc : check_txids s u u.txids with
        | none => simp [hc]
        | some e => simp [hc] at hok

theorem mutations_tail_bound (s0 : SparseChain) (u : Update) (n : Nat)
    (hs0 : s0.checkpoints.Pairwise (fun a b => a.1 < b.1))
    (hl0 : s0.checkpoint_limit = some n) :
    (prune_checkpoints (apply_update_txids
        { s0 with checkpoints := btreemap_or_insert s0.checkpoints u.new_tip.height u.new_tip.hash }
        u.txids)).checkpoints.length ≤ n := by
  set s2 : SparseChain :=
    { s0 with checkpoints := btreemap_or_insert s0.checkpoints u.new_tip.height u.new_tip.hash }
    with hs2def
  have hsort2 : s2.checkpoints.Pairwise (fun a b => a.1 < b.1) :=
    btreemap_or_insert_sorted _ _ _ hs0
  have hpres := apply_update_txids_preserves u.txids s2
  have hsort3 : (apply_update_txids s2 u.txids).checkpoints.Pairwise (fun a b => a.1 < b.1) := by
    rw [hpres.1]; exact hsort2
  have hl3 : (apply_update_txids s2 u.txids).checkpoint_limit = some n := by
    rw [hpres.2]; exact hl0
  have hps := prune_checkpoints_spec (apply_update_txids s2 u.txids) n hsort3 hl3
  rw [hps.1, List.length_drop]
  omega

theorem apply_update_mutations_bound (s : SparseChain) (u : Update) (n : Nat)
    (hs : s.checkpoints.Pairwise (fun a b => a.1 < b.1))
    (hl : s.checkpoint_limit = some n) :
    (apply_update_mutations s u).checkpoints.length ≤ n := by
  unfold apply_update_mutations
  cases hinv : u.invalidate with
  | none => exact mutations_tail_bound s u n hs hl
  | some inv =>
    exact mutations_tail_bound (invalidate_checkpoints s inv.height) u n
      (List.Pairwise.filter _ hs) hl

theorem apply_update_checkpoint_bound (s : SparseChain) (u : Update) (n : Nat)
    (hs : s.checkpoints.Pairwise (fun a b => a.1 < b.1))
    (hl : s.checkpoint_limit = some n)
    (hok : (apply_update s u).1 = Except.ok ()) :
    (apply_update s u).2.checkpoints.length ≤ n := by
  rw [apply_update_ok_state s u hok]
  exact apply_update_mutations_bound s u n hs hl

/-- C7 (amended): with a checkpoint limit of `n` set and checkpoints
sorted by height, a successful `apply_update` or `apply_block_txs`
leaves at most `n` checkpoints; `disconnect_block` and `clear_mempool`
never increase the count; `set_checkpoint_limit` leaves the stored
checkpoints unchanged (it does not prune); pruning keeps the `n` highest
checkpoints (dropping the lowest) and leaves `txid_by_height` and
`txid_to_index` untouched. -/
theorem checkpoint_limit_respected (n : Nat) :
    (∀ s u, s.checkpoints.Pairwise (fun a b => a.1 < b.1) → s.checkpoint_limit = some n →
      (apply_update s u).1 = Except.ok () → (apply_update s u).2.checkpoints.length ≤ n) ∧
    (∀ s b txs, s.checkpoints.Pairwise (fun a b => a.1 < b.1) → s.checkpoint_limit = some n →
      (apply_block_txs s b txs).1 = Except.ok () →
      (apply_block_txs s b txs).2.checkpoints.length ≤ n) ∧
    (∀ s b, (disconnect_block s b).checkpoints.length ≤ s.checkpoints.length) ∧
    (∀ s, (clear_mempool s).checkpoints = s.checkpoints) ∧
    (∀ s lim, (set_checkpoint_limit s lim).checkpoints = s.checkpoints) ∧
    (∀ s, s.checkpoints.Pairwise (fun a b => a.1 < b.1) → s.checkpoint_limit = some n →
      (prune_checkpoints s).checkpoints = s.checkpoints.drop (s.checkpoints.length - n) ∧
      (prune_checkpoints s).txid_by_height = s.txid_by_height ∧
      (prune_checkpoints s).txid_to_index = s.txid_to_index) := by
  refine ⟨?_, ?_, ?_, ?_, ?_, ?_⟩
  · intro s u hs hl hok
    exact apply_update_checkpoint_bound s u n hs hl hok
  · intro s b txs hs hl hok
    unfold apply_block_txs at hok ⊢
    exact apply_update_checkpoint_bound s _ n hs hl hok
  · intro s b
    unfold disconnect_block
    cases halk : alookup b.height s.checkpoints with
    | none => exact le_refl _
    | some hsh =>
      show (if hsh = b.hash then clear_mempool (invalidate_checkpoints s b.height)
        else s).checkpoints.length ≤ s.checkpoints.length
      by_cases he : hsh = b.hash
      · rw [if_pos he]
        exact List.length_filter_le _ _
      · rw [if_neg he]
  · intro s; rfl
  · intro s lim; rfl
  · intro s hs hl
    have hps := prune_checkpoints_spec s n hs hl
    exact ⟨hps.1, hps.2.1, hps.2.2.1⟩

/-- A reachable chain with six checkpoints and no checkpoint limit. -/
def c7_chain : SparseChain :=
  (apply_update
    (apply_update
      (apply_update
        (apply_update
          (apply_update
            (apply_update empty_sparse_chain (update_new none ⟨0, 0⟩)).2
            (update_new (some ⟨0, 0⟩) ⟨1, 1⟩)).2
          (update_new (some ⟨1, 1⟩) ⟨2, 2⟩)).2
        (update_new (some ⟨2, 2⟩) ⟨3, 3⟩)).2
      (update_new (some ⟨3, 3⟩) ⟨4, 4⟩)).2
    (update_new (some ⟨4, 4⟩) ⟨5, 5⟩)).2

/-- C7 counterexample: `set_checkpoint_limit` stores the limit but does
not prune, so a reachable chain can hold six checkpoints while its limit
is five. -/
theorem set_checkpoint_limit_no_prune_counterexample :
    (set_checkpoint_limit c7_chain (some 5)).checkpoint_limit = some 5 ∧
    (set_checkpoint_limit c7_chain (some 5)).checkpoints.length = 6 :=
  ⟨by decide, by decide⟩

/-- A one-checkpoint chain with a checkpoint limit of one. -/
def c7_small_chain : SparseChain :=
  { checkpoints := [(0, 0)], txid_by_height := [], txid_to_index := [], mempool := [],
    checkpoint_limit := some 1 }

theorem checkpoint_limit_respected_witness :
    (apply_update c7_small_chain (update_new (some ⟨0, 0⟩) ⟨1, 1⟩)).2.checkpoints.length ≤ 1 :=
  (checkpoint_limit_respected 1).1 c7_small_chain (update_new (some ⟨0, 0⟩) ⟨1, 1⟩)
    (by simp [c7_small_chain]) (by decide) (by decide)

/-- Modelled from the spec: a transaction as seen by the chain graph.
`chain_graph.rs` and `tx_graph.rs` of `bdk_chain` are not in the source
tree, so the conflict-resolution input is modelled from the spec's words:
only the txid and the input outpoints of a transaction matter; outpoints
are `(txid, vout)` pairs. -/
structure ModelTx where
  txid : Nat
  inputs : List (Nat × Nat)
deriving DecidableEq, Repr

/-- Modelled from the spec: the parts of a `ChainGraph` that drive
conflict resolution — the sparse chain's txid positions, its
checkpoints, and the graph's full transactions. -/
structure ChainGraphM where
  chain_txids : List (Nat × TxHeight)
  checkpoints : List (Nat × Nat)
  graph_txs : List ModelTx
deriving DecidableEq, Repr

/-- Modelled from the spec: `spends[op]` taken over the union of the
current `TxGraph` and the update's additions. -/
def spends_union (cg upd : ChainGraphM) (op : Nat × Nat) : List Nat :=
  ((cg.graph_txs ++ upd.graph_txs).filter (fun t => decide (op ∈ t.inputs))).map ModelTx.txid

/-- Modelled from the spec: the update invalidates some checkpoint of
height at most `h` — a current checkpoint whose height the update
re-populates with a different hash. -/
def update_invalidates_le (cg upd : ChainGraphM) (h : Nat) : Bool :=
  cg.checkpoints.any (fun p =>
    decide (p.1 ≤ h) && (match alookup p.1 upd.checkpoints with
      | some hs => decide (hs ≠ p.2)
      | none => false))

/-- Modelled from the spec: the conflicting chain-resident txids of one
update tx — every other txid spending one of its input outpoints (over
the union graph) that is present in the sparse chain. -/
def conflicting_old_txids (cg upd : ChainGraphM) (new : ModelTx) : List Nat :=
  (new.inputs.bind (fun op => spends_union cg upd op)).filter
    (fun old => decide (old ≠ new.txid) && (alookup old cg.chain_txids).isSome)

/-- Modelled from the spec: `UpdateError::UnresolvableConflict` carrying
the already-confirmed tx and the update tx (as position/txid pairs). -/
inductive UpdateErrorM where
  | UnresolvableConflict (already_confirmed_tx update_tx : TxHeight × Nat)
deriving DecidableEq, Repr

/-- Modelled from the spec: resolve the conflicts of one update tx — a
conflicting tx confirmed at a height the update does not invalidate
aborts with `UnresolvableConflict`; any other conflicting chain-resident
tx is marked for eviction (`txids[old] = none`). -/
def resolve_olds (cg upd : ChainGraphM) (new_pos : TxHeight) (new_txid : Nat) :
    List Nat → Except UpdateErrorM (List (Nat × Option TxHeight))
  | [] => .ok []
  | old :: rest =>
    match alookup old cg.chain_txids with
    | some (TxHeight.Confirmed h) =>
      if update_invalidates_le cg upd h then
        match resolve_olds cg upd new_pos new_txid rest with
        | .ok l => .ok ((old, none) :: l)
        | .error e => .error e
      else
        .error (.UnresolvableConflict (TxHeight.Confirmed h, old) (new_pos, new_txid))
    | some TxHeight.Unconfirmed =>
      match resolve_olds cg upd new_pos new_txid rest with
      | .ok l => .ok ((old, none) :: l)
      | .error e => .error e
    | none => resolve_olds cg upd new_pos new_txid rest

/-- Modelled from the spec: the txid-eviction part of
`ChainGraph::determine_changeset` — process every update tx that has a
chain position, stopping at the first unresolvable conflict and
otherwise collecting the evictions. -/
def determine_evictions (cg upd : ChainGraphM) :
    List ModelTx → Except UpdateErrorM (List (Nat × Option TxHeight))
  | [] => .ok []
  | new :: rest =>
    match alookup new.txid upd.chain_txids with
    | none => determine_evictions cg upd rest
    | some new_pos =>
      match resolve_olds cg upd new_pos new.txid (conflicting_old_txids cg upd new) with
      | .error e => .error e
      | .ok l1 =>
        match determine_evictions cg upd rest with
        | .error e => .error e
        | .ok l2 => .ok (l1 ++ l2)

/-- Modelled from the spec: the txid part of the changeset computed by
`ChainGraph::determine_changeset` over the update's transactions. -/
def determine_changeset_txids (cg upd : ChainGraphM) :
    Except UpdateErrorM (List (Nat × Option TxHeight)) :=
  determine_evictions cg upd upd.graph_txs

/-- The payload of a reported conflict is genuine: an update tx with a
chain position, and a conflicting chain-resident tx confirmed at a
height the update does not invalidate. -/
def unresolvable_pair (cg upd : ChainGraphM) (ac ut : TxHeight × Nat) : Prop :=
  ∃ new, new ∈ upd.graph_txs ∧ alookup new.txid upd.chain_txids = some ut.1 ∧
    ut.2 = new.txid ∧ ac.2 ∈ conflicting_old_txids cg upd new ∧
    alookup ac.2 cg.chain_txids = some ac.1 ∧
    ∃ h, ac.1 = TxHeight.Confirmed h ∧ update_invalidates_le cg upd h = false

theorem mem_conflicting_old_txids (cg upd : ChainGraphM) (new : ModelTx) (old : Nat) :
    old ∈ conflicting_old_txids cg upd new ↔
      ((∃ op, op ∈ new.inputs ∧ old ∈ spends_union cg upd op) ∧ old ≠ new.txid ∧
        (alookup old cg.chain_txids).isSome = true) := by
  unfold conflicting_old_txids
  rw [List.mem_filter, List.mem_bind]
  simp only [Bool.and_eq_true, decide_eq_true_eq]

theorem resolve_olds_error_sound (cg upd : ChainGraphM) (new : ModelTx) (new_pos : TxHeight)
    (hnew : new ∈ upd.graph_txs) (hpos : alookup new.txid upd.chain_txids = some new_pos)
    (olds : List Nat) (hsub : ∀ o ∈ olds, o ∈ conflicting_old_txids cg upd new)
    (e : UpdateErrorM)
    (he : resolve_olds cg upd new_pos new.txid olds = .error e) :
    ∃ ac ut, e = .UnresolvableConflict ac ut ∧ unresolvable_pair cg upd ac ut := by
  induction olds with
  | nil => simp [resolve_olds] at he
  | cons old rest ih =>
    have hsub_rest : ∀ o ∈ rest, o ∈ conflicting_old_txids cg upd new :=
      fun o ho => hsub o (List.mem_cons_of_mem _ ho)
    cases halk : alookup old cg.chain_txids with
    | none =>
      simp only [resolve_olds, halk] at he
      exact ih hsub_rest he
    | some pos =>
      cases pos with
      | Unconfirmed =>
        simp only [resolve_olds, halk] at he
        cases hr : resolve_olds cg upd new_pos new.txid rest with
        | ok l => rw [hr] at he; simp at he
        | error e2 =>
          rw [hr] at he
          simp at he
          subst he
          exact ih hsub_rest hr
      | Confirmed h =>
        simp only [resolve_olds, halk] at he
        by_cases hinv : update_invalidates_le cg upd h = true
        · rw [if_pos hinv] at he
          cases hr : resolve_olds cg upd new_pos new.txid rest with
          | ok l => rw [hr] at he; simp at he
          | error e2 =>
            rw [hr] at he
            simp at he
            subst he
            exact ih hsub_rest hr
        · rw [if_neg hinv] at he
          simp at he
          refine ⟨(TxHeight.Confirmed h, old), (new_pos, new.txid), he.symm, ?_⟩
          refine ⟨new, hnew, hpos, rfl, hsub old (List.mem_cons_self _ _), halk, h, rfl, ?_⟩
          simpa using hinv

theorem resolve_olds_error_complete (cg upd : ChainGraphM) (new_pos : TxHeight) (new_txid : Nat)
    (olds : List Nat) (old : Nat) (h : Nat)
    (hmem : old ∈ olds) (halk : alookup old cg.chain_txids = some (TxHeight.Confirmed h))
    (hninv : update_invalidates_le cg upd h = false) :
    ∃ e, resolve_olds cg upd new_pos new_txid olds = .error e := by
  induction olds with
  | nil => cases hmem
  | cons o rest ih =>
    rcases List.mem_cons.mp hmem with heq | hmem2
    · subst heq
      refine ⟨.UnresolvableConflict (TxHeight.Confirmed h, old) (new_pos, new_txid), ?_⟩
      simp [resolve_olds, halk, hninv]
    · cases halko : alookup o cg.chain_txids with
      | none =>
        obtain ⟨e, he⟩ := ih hmem2
        exact ⟨e, by simp [resolve_olds, halko, he]⟩
      | some pos =>
        cases pos with
        | Unconfirmed =>
          obtain ⟨e, he⟩ := ih hmem2
          exact ⟨e, by simp [resolve_olds, halko, he]⟩
        | Confirmed h2 =>
          by_cases hinv2 : update_invalidates_le cg upd h2 = true
          · obtain ⟨e, he⟩ := ih hmem2
            exact ⟨e, by simp [resolve_olds, halko, hinv2, he]⟩
          · exact ⟨.UnresolvableConflict (TxHeight.Confirmed h2, o) (new_pos, new_txid),
              by simp [resolve_olds, halko, hinv2]⟩

theorem resolve_olds_ok_mem (cg upd : ChainGraphM) (new_pos : TxHeight) (new_txid : Nat)
    (olds : List Nat) (l : List (Nat × Option TxHeight))
    (hok : resolve_olds cg upd new_pos new_txid olds = .ok l)
    (old : Nat) (hmem : old ∈ olds) (pos : TxHeight)
    (halk : alookup old cg.chain_txids = some pos)
    (hres : pos = TxHeight.Unconfirmed ∨
      ∃ h, pos = TxHeight.Confirmed h ∧ update_invalidates_le cg upd h = true) :
    (old, (none : Option TxHeight)) ∈ l := by
  induction olds generalizing l with
  | nil => cases hmem
  | cons o rest ih =>
    rcases List.mem_cons.mp hmem with heq | hmem2
    · subst heq
      rcases hres with hres | ⟨h, hres, hinv⟩
      · subst hres
        simp only [resolve_olds, halk] at hok
        cases hr : resolve_olds cg upd new_pos new_txid rest with
        | error e => rw [hr] at hok; simp at hok
        | ok l2 =>
          rw [hr] at hok
          simp at hok
          subst hok
          exact List.mem_cons_self _ _
      · subst hres
        simp only [resolve_olds, halk] at hok
        rw [if_pos hinv] at hok
        cases hr : resolve_olds cg upd new_pos new_txid rest with
        | error e => rw [hr] at hok; simp at hok
        | ok l2 =>
          rw [hr] at hok
          simp at hok
          subst hok
          exact List.mem_cons_self _ _
    · cases halko : alookup o cg.chain_txids with
      | none =>
        simp only [resolve_olds, halko] at hok
        exact ih l hok hmem2
      | some pos2 =>
        cases pos2 with
        | Unconfirmed =>
          simp only [resolve_olds, halko] at hok
          cases hr : resolve_olds cg upd new_pos new_txid rest with
          | error e => rw [hr] at hok; simp at hok
          | ok l2 =>
            rw [hr] at hok
            simp at hok
            subst hok
            exact List.mem_cons_of_mem _ (ih l2 hr hmem2)
        | Confirmed h2 =>
          simp only [resolve_olds, halko] at hok
          by_cases hinv2 : update_invalidates_le cg upd h2 = true
          · rw [if_pos hinv2] at hok
            cases hr : resolve_olds cg upd new_pos new_txid rest with
            | error e => rw [hr] at hok; simp at hok
            | ok l2 =>
              rw [hr] at hok
              simp at hok
              subst hok
              exact List.mem_cons_of_mem _ (ih l2 hr hmem2)
          · rw [if_neg hinv2] at hok
            simp at hok

theorem determine_evictions_error_sound (cg upd : ChainGraphM) (l : List ModelTx)
    (hsub : ∀ t ∈ l, t ∈ upd.graph_txs) (e : UpdateErrorM)
    (he : determine_evictions cg upd l = .error e) :
    ∃ ac ut, e = .UnresolvableConflict ac ut ∧ unresolvable_pair cg upd ac ut := by
  induction l with
  | nil => simp [determine_evictions] at he
  | cons t rest ih =>
    have hsub_rest : ∀ x ∈ rest, x ∈ upd.graph_txs :=
      fun x hx => hsub x (List.mem_cons_of_mem _ hx)
    cases hpt : alookup t.txid upd.chain_txids with
    | none =>
      simp only [determine_evictions, hpt] at he
      exact ih hsub_rest he
    | some pt =>
      simp only [determine_evictions, hpt] at he
      cases hr : resolve_olds cg upd pt t.txid (conflicting_old_txids cg upd t) with
      | error e2 =>
        rw [hr] at he
        simp at he
        subst he
        exact resolve_olds_error_sound cg upd t pt (hsub t (List.mem_cons_self _ _)) hpt
          (conflicting_old_txids cg upd t) (fun o ho => ho) e2 hr
      | ok l1 =>
        rw [hr] at he
        cases hrest : determine_evictions cg upd rest with
        | error e2 =>
          rw [hrest] at he
          simp at he
          subst he
          exact ih hsub_rest hrest
        | ok l2 => rw [hrest] at he; simp at he

theorem determine_evictions_error_complete (cg upd : ChainGraphM) (l : List ModelTx)
    (new : ModelTx) (new_pos : TxHeight) (old : Nat) (h : Nat)
    (hmem : new ∈ l) (hpos : alookup new.txid upd.chain_txids = some new_pos)
    (hold : old ∈ conflicting_old_txids cg upd new)
    (halk : alookup old cg.chain_txids = some (TxHeight.Confirmed h))
    (hninv : update_invalidates_le cg upd h = false) :
    ∃ e, determine_evictions cg upd l = .error e := by
  induction l with
  | nil => cases hmem
  | cons t rest ih =>
    rcases List.mem_cons.mp hmem with heq | hmem2
    · subst heq
      obtain ⟨e, he⟩ := resolve_olds_error_complete cg upd new_pos new.txid
        (conflicting_old_txids cg upd new) old h hold halk hninv
      exact ⟨e, by simp [determine_evictions, hpos, he]⟩
    · cases hpt : alookup t.txid upd.chain_txids with
      | none =>
        obtain ⟨e, he⟩ := ih hmem2
        exact ⟨e, by simp [determine_evictions, hpt, he]⟩
      | some pt =>
        cases hr : resolve_olds cg upd pt t.txid (conflicting_old_txids cg upd t) with
        | error e2 => exact ⟨e2, by simp [determine_evictions, hpt, hr]⟩
        | ok l1 =>
          obtain ⟨e, he⟩ := ih hmem2
          exact ⟨e, by simp [determine_evictions, hpt, hr, he]⟩

theorem determine_evictions_ok_mem (cg upd : ChainGraphM) (l : List ModelTx)
    (cs : List (Nat × Option TxHeight))
    (hok : determine_evictions cg upd l = .ok cs)
    (new : ModelTx) (hmem : new ∈ l) (new_pos : TxHeight)
    (hpos : alookup new.txid upd.chain_txids = some new_pos)
    (old : Nat) (hold : old ∈ conflicting_old_txids cg upd new) (pos : TxHeight)
    (halk : alookup old cg.chain_txids = some pos)
    (hres : pos = TxHeight.Unconfirmed ∨
      ∃ h2, pos = TxHeight.Confirmed h2 ∧ update_invalidates_le cg upd h2 = true) :
    (old, (none : Option TxHeight)) ∈ cs := by
  induction l generalizing cs with
  | nil => cases hmem
  | cons t rest ih =>
    rcases List.mem_cons.mp hmem with heq | hmem2
    · subst heq
      simp only [determine_evictions, hpos] at hok
      cases hr : resolve_olds cg upd new_pos new.txid (conflicting_old_txids cg upd new) with
      | error e => rw [hr] at hok; simp at hok
      | ok l1 =>
        rw [hr] at hok
        cases hrest : determine_evictions cg upd rest with
        | error e => rw [hrest] at hok; simp at hok
        | ok l2 =>
          rw [hrest] at hok
          simp at hok
          subst hok
          exact List.mem_append.mpr
            (Or.inl (resolve_olds_ok_mem cg upd new_pos new.txid _ l1 hr old hold pos halk hres))
    · cases hpt : alookup t.txid upd.chain_txids with
      | none =>
        simp only [determine_evictions, hpt] at hok
        exact ih cs hok hmem2
      | some pt =>
        simp only [determine_evictions, hpt] at hok
        cases hr : resolve_olds cg upd pt t.txid (conflicting_old_txids cg upd t) with
        | error e => rw [hr] at hok; simp at hok
        | ok l1 =>
          rw [hr] at hok
          cases hrest : determine_evictions cg upd rest with
          | error e => rw [hrest] at hok; simp at hok
          | ok l2 =>
            rw [hrest] at hok
            simp at hok
            subst hok
            exact List.mem_append.mpr (Or.inr (ih l2 hrest hmem2))

/-- C2: conflict resolution of `determine_changeset` (modelled from the
spec): for an update tx `new` (with a chain position) spending outpoint
`op`, and an existing chain-resident txid `old` in `spends[op]` over the
union graph — if `old` is confirmed at a height the update does not
invalidate, the changeset computation fails with an
`UnresolvableConflict` carrying a genuine such pair; otherwise (`old`
unconfirmed, or confirmed at an invalidated height) the computed
changeset maps `old` to `none`, evicting it. -/
theorem determine_changeset_conflict_resolution (cg upd : ChainGraphM)
    (new : ModelTx) (new_pos : TxHeight) (op : Nat × Nat) (old : Nat) (old_pos : TxHeight)
    (hnew : new ∈ upd.graph_txs)
    (hpos : alookup new.txid upd.chain_txids = some new_pos)
    (hop : op ∈ new.inputs)
    (hspend : old ∈ spends_union cg upd op)
    (hne : old ≠ new.txid)
    (halk : alookup old cg.chain_txids = some old_pos) :
    (∀ h, old_pos = TxHeight.Confirmed h → update_invalidates_le cg upd h = false →
      ∃ ac ut, determine_changeset_txids cg upd = .error (.UnresolvableConflict ac ut) ∧
        unresolvable_pair cg upd ac ut) ∧
    ((old_pos = TxHeight.Unconfirmed ∨
        ∃ h, old_pos = TxHeight.Confirmed h ∧ update_invalidates_le cg upd h = true) →
      ∀ cs, determine_changeset_txids cg upd = .ok cs →
        (old, (none : Option TxHeight)) ∈ cs) := by
  have hold : old ∈ conflicting_old_txids cg upd new :=
    (mem_conflicting_old_txids cg upd new old).mpr ⟨⟨op, hop, hspend⟩, hne, by rw [halk]; rfl⟩
  constructor
  · intro h hph hninv
    subst hph
    obtain ⟨e, he⟩ := determine_evictions_error_complete cg upd upd.graph_txs new new_pos old h
      hnew hpos hold halk hninv
    obtain ⟨ac, ut, hee, hpair⟩ := determine_evictions_error_sound cg upd upd.graph_txs
      (fun t ht => ht) e he
    subst hee
    exact ⟨ac, ut, he, hpair⟩
  · intro hres cs hok
    exact determine_evictions_ok_mem cg upd upd.graph_txs cs hok new hnew new_pos hpos old hold
      old_pos halk hres

/-- The current chain graph of the reorg-eviction scenario: txs 1 and 2
in the chain, tx 2 spending output 0 of tx 1, checkpoints at heights 0
and 1. -/
def c2_cg : ChainGraphM :=
  { chain_txids := [(1, TxHeight.Confirmed 0), (2, TxHeight.Confirmed 1)],
    checkpoints := [(0, 10), (1, 11)],
    graph_txs := [⟨1, []⟩, ⟨2, [(1, 0)]⟩] }

/-- The update: replaces the checkpoint at height 1 and introduces tx 3,
unconfirmed, also spending output 0 of tx 1. -/
def c2_upd : ChainGraphM :=
  { chain_txids := [(3, TxHeight.Unconfirmed)],
    checkpoints := [(0, 10), (1, 12)],
    graph_txs := [⟨3, [(1, 0)]⟩] }

theorem determine_changeset_conflict_resolution_witness :
    (2, (none : Option TxHeight)) ∈ [((2 : Nat), (none : Option TxHeight))] :=
  (determine_changeset_conflict_resolution c2_cg c2_upd ⟨3, [(1, 0)]⟩ TxHeight.Unconfirmed
      (1, 0) 2 (TxHeight.Confirmed 1) (by decide) (by decide) (by decide) (by decide)
      (by decide) (by decide)).2
    (Or.inr ⟨1, rfl, by decide⟩) [(2, none)] (by decide)

/-- Modelled from the spec: the `TxGraph` data relevant to
`inflate_changeset` — stored full transactions and loose txouts
(`tx_graph.rs` is not in the source tree); a txout is an opaque value
keyed by outpoint. -/
structure TxGraphM where
  txs : List ModelTx
  txouts : List ((Nat × Nat) × Nat)
deriving DecidableEq, Repr

/-- Modelled from the spec: `InflateError::Missing` carrying the set of
still-missing txids. -/
inductive InflateErrorM where
  | Missing (txids : List Nat)
deriving DecidableEq, Repr

/-- Modelled from the spec: a `ChainGraph` changeset — the sparse-chain
txid diff together with the graph additions. -/
structure ChangeSetM where
  chain_txids : List (Nat × Option TxHeight)
  graph_additions : List ModelTx
deriving DecidableEq, Repr

/-- Does the graph hold a full transaction with this txid? -/
def graph_contains_tx (g : TxGraphM) (t : Nat) : Bool :=
  g.txs.any (fun tx => decide (tx.txid = t))

/-- Does the supplied pool hold a full transaction with this txid? -/
def txs_contain (supplied : List ModelTx) (t : Nat) : Bool :=
  supplied.any (fun tx => decide (tx.txid = t))

/-- Modelled from the spec: the still-missing txids of
`ChainGraph::inflate_changeset` — those appearing with a `some` position
in the chain diff that are neither stored as full transactions in the
graph nor supplied; loose txouts are not consulted. -/
def still_missing (g : TxGraphM) (chain_cs : List (Nat × Option TxHeight))
    (supplied : List ModelTx) : List Nat :=
  ((chain_cs.filter (fun p =>
      p.2.isSome && !graph_contains_tx g p.1 && !txs_contain supplied p.1)).map Prod.fst).dedup

/-- Modelled from the spec: `ChainGraph::inflate_changeset` — fail with
the still-missing txids, or return the changeset whose graph additions
are the supplied transactions that the chain diff introduces and the
graph does not already hold in full. -/
def inflate_changeset (g : TxGraphM) (chain_cs : List (Nat × Option TxHeight))
    (supplied : List ModelTx) : Except InflateErrorM ChangeSetM :=
  let missing := still_missing g chain_cs supplied
  if missing.isEmpty then
    .ok { chain_txids := chain_cs,
          graph_additions := supplied.filter (fun tx =>
            (chain_cs.any (fun p => decide (p.1 = tx.txid) && p.2.isSome)) &&
              !graph_contains_tx g tx.txid) }
  else .error (.Missing missing)

theorem mem_still_missing (g : TxGraphM) (chain_cs : List (Nat × Option TxHeight))
    (supplied : List ModelTx) (t : Nat) :
    t ∈ still_missing g chain_cs supplied ↔
      ((∃ h, (t, some h) ∈ chain_cs) ∧ graph_contains_tx g t = false ∧
        txs_contain supplied t = false) := by
  unfold still_missing
  rw [List.mem_dedup, List.mem_map]
  constructor
  · rintro ⟨p, hp, hpt⟩
    rw [List.mem_filter] at hp
    obtain ⟨hmem, hcond⟩ := hp
    simp only [Bool.and_eq_true, Bool.not_eq_true'] at hcond
    obtain ⟨⟨hsome, hg⟩, hs⟩ := hcond
    subst hpt
    obtain ⟨h, hh⟩ := Option.isSome_iff_exists.mp hsome
    refine ⟨⟨h, ?_⟩, hg, hs⟩
    have : p = (p.1, some h) := by
      rw [← hh]
    rw [← this]
    exact hmem
  · rintro ⟨⟨h, hmem⟩, hg, hs⟩
    refine ⟨(t, some h), List.mem_filter.mpr ⟨hmem, ?_⟩, rfl⟩
    simp [hg, hs]

/-- C6: `inflate_changeset` (modelled from the spec) fails with exactly
the set of txids that appear with a `some` position in the chain diff
and are neither stored as full transactions in the graph nor supplied;
adding a loose txout changes nothing; on success the graph additions
contain every newly supplied transaction. -/
theorem inflate_changeset_missing (g : TxGraphM) (chain_cs : List (Nat × Option TxHeight))
    (supplied : List ModelTx) :
    (∀ S, inflate_changeset g chain_cs supplied = .error (.Missing S) →
      ∀ t, (t ∈ S ↔ ((∃ h, (t, some h) ∈ chain_cs) ∧ graph_contains_tx g t = false ∧
        txs_contain supplied t = false))) ∧
    ((∃ t h, (t, some h) ∈ chain_cs ∧ graph_contains_tx g t = false ∧
        txs_contain supplied t = false) ↔
      ∃ S, inflate_changeset g chain_cs supplied = .error (.Missing S)) ∧
    (∀ op v, inflate_changeset { txs := g.txs, txouts := (op, v) :: g.txouts } chain_cs supplied =
      inflate_changeset g chain_cs supplied) ∧
    (∀ out, inflate_changeset g chain_cs supplied = .ok out →
      out.chain_txids = chain_cs ∧
      ∀ tx ∈ supplied, (∃ h, (tx.txid, some h) ∈ chain_cs) →
        graph_contains_tx g tx.txid = false → tx ∈ out.graph_additions) := by
  refine ⟨?_, ?_, ?_, ?_⟩
  · intro S hS t
    unfold inflate_changeset at hS
    by_cases hemp : (still_missing g chain_cs supplied).isEmpty = true
    · simp [hemp] at hS
    · simp only [hemp, Bool.false_eq_true, if_false] at hS
      have hSm : S = still_missing g chain_cs supplied := by
        have := Except.error.inj hS
        exact (InflateErrorM.Missing.inj this).symm
      subst hSm
      exact mem_still_missing g chain_cs supplied t
  · constructor
    · rintro ⟨t, h, hmem, hg, hs⟩
      have ht : t ∈ still_missing g chain_cs supplied :=
        (mem_still_missing g chain_cs supplied t).mpr ⟨⟨h, hmem⟩, hg, hs⟩
      have hemp : (still_missing g chain_cs supplied).isEmpty = false := by
        cases hcase : still_missing g chain_cs supplied with
        | nil => rw [hcase] at ht; cases ht
        | cons a l => simp [hcase]
      refine ⟨still_missing g chain_cs supplied, ?_⟩
      unfold inflate_changeset
      simp [hemp]
    · rintro ⟨S, hS⟩
      unfold inflate_changeset at hS
      by_cases hemp : (still_missing g chain_cs supplied).isEmpty = true
      · simp [hemp] at hS
      · have hne : still_missing g chain_cs supplied ≠ [] := by
          intro hnil
          rw [hnil] at hemp
          exact hemp rfl
        obtain ⟨t, ht⟩ := List.exists_mem_of_ne_nil _ hne
        obtain ⟨⟨h, hmem⟩, hg, hs⟩ := (mem_still_missing g chain_cs supplied t).mp ht
        exact ⟨t, h, hmem, hg, hs⟩
  · intro op v
    rfl
  · intro out hout
    unfold inflate_changeset at hout
    by_cases hemp : (still_missing g chain_cs supplied).isEmpty = true
    · simp only [hemp, if_true] at hout
      have hout2 := Except.ok.inj hout
      subst hout2
      refine ⟨rfl, ?_⟩
      intro tx htx ⟨h, hmem⟩ hg
      refine List.mem_filter.mpr ⟨htx, ?_⟩
      simp only [Bool.and_eq_true, Bool.not_eq_true', List.any_eq_true]
      exact ⟨⟨(tx.txid, some h), hmem, by simp⟩, hg⟩
    · simp [hemp] at hout

/-- The inflate scenario of the tests: an empty graph apart from a loose
txout of tx 1, a diff confirming txs 1 and 2 at height 0, and only tx 2
supplied. -/
def c6_graph : TxGraphM :=
  { txs := [], txouts := [((1, 0), 99)] }

def c6_chain_cs : List (Nat × Option TxHeight) :=
  [(1, some (TxHeight.Confirmed 0)), (2, some (TxHeight.Confirmed 0))]

theorem inflate_changeset_missing_witness :
    (1 ∈ still_missing c6_graph c6_chain_cs [⟨2, []⟩]) ∧
    (∃ S, inflate_changeset c6_graph c6_chain_cs [⟨2, []⟩] = .error (.Missing S)) :=
  ⟨by decide,
    (inflate_changeset_missing c6_graph c6_chain_cs [⟨2, []⟩]).2.1.mp
      ⟨1, TxHeight.Confirmed 0, by decide, by decide, by decide⟩⟩
